import Mathlib

/-!
Shallow embedding of `src/exportt5.py`.

The script iterates over a hard-coded list of model identifiers; for each it
derives `model_name = model_id.split("/")[1]`, builds
`onnx_path = Path("onnx/" + model_name)`, loads and converts the model
(`ORTModelForSeq2SeqLM.from_pretrained`), loads the tokenizer
(`AutoTokenizer.from_pretrained`), and saves both to `onnx_path`.

External library calls (load/convert, tokenizer load, saves) are modelled as
capabilities (`Caps`): boolean oracles saying whether a call raises, plus the
deterministic content each save writes.  A run produces a trace of the calls
issued, a final filesystem, and an optional failure; an uncaught exception
aborts the whole run, exactly as unhandled Python exceptions do.
-/

namespace ExportT5

/-- Python `s.split(sep)` for a single-character separator, on the character
list: splits on every occurrence, keeping empty pieces (`"".split("/") ==
[""]`, `"/".split("/") == ["", ""]`). -/
def pySplit (sep : Char) : List Char → List (List Char)
  | [] => [[]]
  | c :: cs =>
    if c = sep then [] :: pySplit sep cs
    else
      match pySplit sep cs with
      | [] => [[c]]
      | w :: ws => (c :: w) :: ws

/-- Python `s.split("/")` lifted to strings. -/
def pySplitStr (s : String) (sep : Char) : List String :=
  (pySplit sep s.data).map fun l => String.mk l

/-- Line 20: `model_name = model_id.split("/")[1]`.  Indexing a Python list
out of range raises `IndexError`; the partial result is `none` in that case. -/
def model_name (model_id : String) : Option String :=
  (pySplitStr model_id '/').get? 1

/-- The string form of `pathlib.Path` applied to a relative POSIX path: the
path is split on `/`, empty components and `.` components are dropped, and
the remainder is rejoined with `/` (so `Path("onnx/")` prints as `onnx`,
`Path("onnx/.")` as `onnx`); an all-empty result prints as `.`. -/
def posixPathStr (s : String) : String :=
  let parts := (pySplitStr s '/').filter fun p => p ≠ "" ∧ p ≠ "."
  match parts with
  | [] => "."
  | p :: rest => rest.foldl (fun acc q => acc ++ "/" ++ q) p

/-- Line 21: `onnx_path = Path("onnx/" + model_name)`, as its canonical
string; `none` when line 20 already raised. -/
def onnx_path (model_id : String) : Option String :=
  (model_name model_id).map fun n => posixPathStr ("onnx/" ++ n)

/-- The text of `s` up to (not including) its first `/`; for an identifier
`ns ++ "/" ++ rest` with slash-free `ns`, the derived `model_name` is
`takeUntilSlash rest` (the split's second component). -/
def takeUntilSlash (s : String) : String :=
  String.mk (s.data.takeWhile fun c => c ≠ '/')

/-- Contents of one output directory: what the two `save_pretrained` calls
have written into it, if anything. -/
structure Dir where
  modelFiles : Option String := none
  tokFiles : Option String := none
deriving DecidableEq

/-- The filesystem, as a map from directory paths to their contents. -/
def Fs := String → Dir

/-- The filesystem before the run: nothing written anywhere. -/
def fsEmpty : Fs := fun _ => {}

/-- Effect of `model.save_pretrained(p)`: (over)writes the model files of
directory `p`. -/
def fsSaveModel (fs : Fs) (p : String) (c : String) : Fs :=
  fun q => if q = p then { fs p with modelFiles := some c } else fs q

/-- Effect of `tokenizer.save_pretrained(p)`: (over)writes the tokenizer
files of directory `p`. -/
def fsSaveTokenizer (fs : Fs) (p : String) (c : String) : Fs :=
  fun q => if q = p then { fs p with tokFiles := some c } else fs q

/-- The external capabilities the script calls into: whether
`ORTModelForSeq2SeqLM.from_pretrained` / `AutoTokenizer.from_pretrained`
succeed for a given identifier, and the (deterministic) content the
corresponding `save_pretrained` calls write. -/
structure Caps where
  convertOk : String → Bool
  tokenizerOk : String → Bool
  modelContent : String → String
  tokContent : String → String

/-- One observable call issued by the loop body. -/
inductive Event where
  | derivePath (modelId : String) (path : String)
  | loadConvert (modelId : String)
  | loadTokenizer (modelId : String)
  | saveModel (path : String)
  | saveTokenizer (path : String)
deriving DecidableEq

/-- How an iteration can abort the run. -/
inductive Failure where
  | indexError
  | convertError
  | tokenizerError
deriving DecidableEq

/-- The loop body (lines 20-29) for a single `model_id`, run against
filesystem `fs`: returns the trace of calls it issues, the filesystem after
it, and `some f` when an uncaught exception `f` aborts it.

* line 20 `model_id.split("/")[1]` raises `IndexError` before any call;
* line 24 `ORTModelForSeq2SeqLM.from_pretrained(model_id, from_transformers=True)`
  may raise (network, unknown id, incompatible architecture);
* line 25 `AutoTokenizer.from_pretrained(model_id)` may raise;
* lines 28-29 save model then tokenizer to `onnx_path`. -/
def processModel (caps : Caps) (fs : Fs) (model_id : String) :
    List Event × Fs × Option Failure :=
  match model_name model_id with
  | none => ([], fs, some .indexError)
  | some nm =>
    let p := posixPathStr ("onnx/" ++ nm)
    if caps.convertOk model_id then
      if caps.tokenizerOk model_id then
        let fs1 := fsSaveModel fs p (caps.modelContent model_id)
        let fs2 := fsSaveTokenizer fs1 p (caps.tokContent model_id)
        ([.derivePath model_id p, .loadConvert model_id, .loadTokenizer model_id,
          .saveModel p, .saveTokenizer p], fs2, none)
      else
        ([.derivePath model_id p, .loadConvert model_id, .loadTokenizer model_id],
         fs, some .tokenizerError)
    else
      ([.derivePath model_id p, .loadConvert model_id], fs, some .convertError)

/-- The whole `for model_id in models:` loop (line 19): straight-line
sequential execution, aborting at the first uncaught exception and reporting
which identifier raised it. -/
def runModels (caps : Caps) : List String → Fs → List Event × Fs × Option (String × Failure)
  | [], fs => ([], fs, none)
  | id :: rest, fs =>
    let r1 := processModel caps fs id
    match r1.2.2 with
    | some f => (r1.1, r1.2.1, some (id, f))
    | none =>
      let r2 := runModels caps rest r1.2.1
      (r1.1 ++ r2.1, r2.2.1, r2.2.2)

/-- The calls one fully successful iteration issues, in order. -/
def successTrace (model_id : String) : List Event :=
  match onnx_path model_id with
  | none => []
  | some p => [.derivePath model_id p, .loadConvert model_id,
               .loadTokenizer model_id, .saveModel p, .saveTokenizer p]

/-- Lines 11-17: the configured model list.  Only the two uncommented
entries are elements; the commented-out lines
(`#"google/flan-t5-small"`, `#"google/flan-t5-base"`,
`#"google/flan-t5-large"`) are not part of the list at all. -/
def models : List String :=
  ["google/flan-t5-xl",
   "google/flan-t5-xxl"]

/-- The identifiers present in the source only as commented-out lines. -/
def disabledModels : List String :=
  ["google/flan-t5-small", "google/flan-t5-base", "google/flan-t5-large"]

/-- Whether an event is a call made against identifier `id`. -/
def eventUsesId (e : Event) (id : String) : Bool :=
  match e with
  | .derivePath i _ => i = id
  | .loadConvert i => i = id
  | .loadTokenizer i => i = id
  | .saveModel _ => false
  | .saveTokenizer _ => false

/-- Concrete capabilities where every external call succeeds, with
per-identifier save contents; used to instantiate the theorems. -/
def capsAll : Caps where
  convertOk := fun _ => true
  tokenizerOk := fun _ => true
  modelContent := fun id => "model:" ++ id
  tokContent := fun id => "tok:" ++ id

/-- Capabilities where the conversion call raises for `"google/bad-model"`
and every other call succeeds. -/
def capsConvertFail : Caps where
  convertOk := fun id => id != "google/bad-model"
  tokenizerOk := fun _ => true
  modelContent := fun id => "model:" ++ id
  tokContent := fun id => "tok:" ++ id

/-- Capabilities where the tokenizer-loading call raises for
`"google/bad-model"` and every other call succeeds. -/
def capsTokFail : Caps where
  convertOk := fun _ => true
  tokenizerOk := fun id => id != "google/bad-model"
  modelContent := fun id => "model:" ++ id
  tokContent := fun id => "tok:" ++ id

/-- The output paths a run over `ids` saves into (when every model succeeds). -/
def touchedPaths (ids : List String) : List String :=
  ids.filterMap onnx_path

/-! ## Lemmas about the split and the derived paths -/

theorem pySplit_takeWhile (sep : Char) (l : List Char) :
    ∃ ws, pySplit sep l = (l.takeWhile fun c => c ≠ sep) :: ws := by
  induction l with
  | nil => exact ⟨[], rfl⟩
  | cons c cs ih =>
    by_cases h : c = sep
    · exact ⟨pySplit sep cs, by simp [pySplit, h, List.takeWhile_cons]⟩
    · obtain ⟨ws, hws⟩ := ih
      exact ⟨ws, by simp [pySplit, h, hws, List.takeWhile_cons]⟩

theorem pySplit_sep_prefixed (sep : Char) (ns rest : List Char) (h : sep ∉ ns) :
    pySplit sep (ns ++ sep :: rest) = ns :: pySplit sep rest := by
  induction ns with
  | nil => simp [pySplit]
  | cons c cs ih =>
    have hc : c ≠ sep := fun e => h (e ▸ List.mem_cons_self c cs)
    have ih' := ih fun hm => h (List.mem_cons_of_mem c hm)
    simp [pySplit, hc, ih']

theorem pySplit_no_sep (sep : Char) (l : List Char) (h : sep ∉ l) :
    pySplit sep l = [l] := by
  induction l with
  | nil => rfl
  | cons c cs ih =>
    have hc : c ≠ sep := fun e => h (e ▸ List.mem_cons_self c cs)
    have ih' := ih fun hm => h (List.mem_cons_of_mem c hm)
    simp [pySplit, hc, ih']

theorem pySplitStr_sep_prefixed (ns rest : String) (h : '/' ∉ ns.data) :
    pySplitStr (ns ++ "/" ++ rest) '/' = ns :: pySplitStr rest '/' := by
  unfold pySplitStr
  have hd : (ns ++ "/" ++ rest).data = ns.data ++ '/' :: rest.data := by
    simp [String.data_append]
  rw [hd, pySplit_sep_prefixed '/' ns.data rest.data h]
  rfl

theorem pySplitStr_no_sep (s : String) (h : '/' ∉ s.data) :
    pySplitStr s '/' = [s] := by
  unfold pySplitStr
  rw [pySplit_no_sep '/' s.data h]
  rfl

theorem pySplitStr_takeWhile (s : String) :
    ∃ ws, pySplitStr s '/' = takeUntilSlash s :: ws := by
  obtain ⟨ws, hws⟩ := pySplit_takeWhile '/' s.data
  exact ⟨ws.map fun l => String.mk l, by simp [pySplitStr, hws, takeUntilSlash]⟩

theorem takeUntilSlash_eq_self (s : String) (h : '/' ∉ s.data) :
    takeUntilSlash s = s := by
  unfold takeUntilSlash
  have : s.data.takeWhile (fun c => decide (c ≠ '/')) = s.data := by
    rw [List.takeWhile_eq_self_iff]
    intro a ha
    simp only [decide_eq_true_eq]
    exact fun e => h (e ▸ ha)
  rw [this]

theorem model_name_concat (ns rest : String) (h : '/' ∉ ns.data) :
    model_name (ns ++ "/" ++ rest) = some (takeUntilSlash rest) := by
  unfold model_name
  rw [pySplitStr_sep_prefixed ns rest h]
  obtain ⟨ws, hws⟩ := pySplitStr_takeWhile rest
  rw [hws]
  rfl

theorem model_name_no_slash (s : String) (h : '/' ∉ s.data) :
    model_name s = none := by
  unfold model_name
  rw [pySplitStr_no_sep s h]
  rfl

theorem posixPathStr_onnx (name : String) (h : '/' ∉ name.data)
    (h0 : name ≠ "") (h1 : name ≠ ".") :
    posixPathStr ("onnx/" ++ name) = "onnx/" ++ name := by
  have e : ("onnx/" ++ name : String) = "onnx" ++ "/" ++ name := by
    apply String.ext
    simp [String.data_append]
  unfold posixPathStr
  rw [e, pySplitStr_sep_prefixed "onnx" name (by decide),
      pySplitStr_no_sep name h]
  simp [List.filter, h0, h1]

theorem onnx_path_concat (ns name : String) (hns : '/' ∉ ns.data)
    (hn : '/' ∉ name.data) (h0 : name ≠ "") (h1 : name ≠ ".") :
    onnx_path (ns ++ "/" ++ name) = some ("onnx/" ++ name) := by
  unfold onnx_path
  rw [model_name_concat ns name hns, takeUntilSlash_eq_self name hn]
  simp [posixPathStr_onnx name hn h0 h1]

/-! ## Lemmas about the loop body and the loop -/

theorem onnx_path_eq_map (model_id : String) :
    onnx_path model_id = (model_name model_id).map fun n => posixPathStr ("onnx/" ++ n) :=
  rfl

theorem processModel_success (caps : Caps) (fs : Fs) (model_id p : String)
    (hp : onnx_path model_id = some p)
    (hc : caps.convertOk model_id = true) (ht : caps.tokenizerOk model_id = true) :
    processModel caps fs model_id =
      ([.derivePath model_id p, .loadConvert model_id, .loadTokenizer model_id,
        .saveModel p, .saveTokenizer p],
       fsSaveTokenizer (fsSaveModel fs p (caps.modelContent model_id)) p
         (caps.tokContent model_id),
       none) := by
  unfold processModel
  rw [onnx_path_eq_map] at hp
  cases hm : model_name model_id with
  | none => rw [hm] at hp; simp at hp
  | some nm =>
    rw [hm] at hp
    simp only [Option.map_some', Option.some.injEq] at hp
    simp [hc, ht, hp]

theorem processModel_convertFail (caps : Caps) (fs : Fs) (model_id p : String)
    (hp : onnx_path model_id = some p)
    (hc : caps.convertOk model_id = false) :
    processModel caps fs model_id =
      ([.derivePath model_id p, .loadConvert model_id], fs, some .convertError) := by
  unfold processModel
  rw [onnx_path_eq_map] at hp
  cases hm : model_name model_id with
  | none => rw [hm] at hp; simp at hp
  | some nm =>
    rw [hm] at hp
    simp only [Option.map_some', Option.some.injEq] at hp
    simp [hc, hp]

theorem processModel_tokenizerFail (caps : Caps) (fs : Fs) (model_id p : String)
    (hp : onnx_path model_id = some p)
    (hc : caps.convertOk model_id = true) (ht : caps.tokenizerOk model_id = false) :
    processModel caps fs model_id =
      ([.derivePath model_id p, .loadConvert model_id, .loadTokenizer model_id],
       fs, some .tokenizerError) := by
  unfold processModel
  rw [onnx_path_eq_map] at hp
  cases hm : model_name model_id with
  | none => rw [hm] at hp; simp at hp
  | some nm =>
    rw [hm] at hp
    simp only [Option.map_some', Option.some.injEq] at hp
    simp [hc, ht, hp]

theorem processModel_indexFail (caps : Caps) (fs : Fs) (model_id : String)
    (hm : model_name model_id = none) :
    processModel caps fs model_id = ([], fs, some .indexError) := by
  unfold processModel
  rw [hm]

theorem runModels_append (caps : Caps) (l1 l2 : List String) (fs : Fs)
    (h : (runModels caps l1 fs).2.2 = none) :
    runModels caps (l1 ++ l2) fs =
      ((runModels caps l1 fs).1 ++ (runModels caps l2 ((runModels caps l1 fs).2.1)).1,
       (runModels caps l2 ((runModels caps l1 fs).2.1)).2.1,
       (runModels caps l2 ((runModels caps l1 fs).2.1)).2.2) := by
  induction l1 generalizing fs with
  | nil => simp [runModels]
  | cons id rest ih =>
    simp only [runModels, List.cons_append] at h ⊢
    cases hf : (processModel caps fs id).2.2 with
    | some f => rw [hf] at h; simp at h
    | none =>
      rw [hf] at h
      dsimp only at h ⊢
      rw [List.append_eq, ih ((processModel caps fs id).2.1) h]
      simp [List.append_assoc]

theorem processModel_trace_fsIndep (caps : Caps) (fs g : Fs) (model_id : String) :
    (processModel caps fs model_id).1 = (processModel caps g model_id).1 := by
  unfold processModel
  cases hm : model_name model_id with
  | none => rfl
  | some nm =>
    cases hc : caps.convertOk model_id <;> cases ht : caps.tokenizerOk model_id <;>
      simp [hc, ht]

theorem processModel_failure_fsIndep (caps : Caps) (fs g : Fs) (model_id : String) :
    (processModel caps fs model_id).2.2 = (processModel caps g model_id).2.2 := by
  unfold processModel
  cases hm : model_name model_id with
  | none => rfl
  | some nm =>
    cases hc : caps.convertOk model_id <;> cases ht : caps.tokenizerOk model_id <;>
      simp [hc, ht]

theorem runModels_trace_fsIndep (caps : Caps) (ids : List String) :
    ∀ fs g : Fs, (runModels caps ids fs).1 = (runModels caps ids g).1 ∧
      (runModels caps ids fs).2.2 = (runModels caps ids g).2.2 := by
  induction ids with
  | nil => intro fs g; exact ⟨rfl, rfl⟩
  | cons id rest ih =>
    intro fs g
    have hf := processModel_failure_fsIndep caps fs g id
    have htr := processModel_trace_fsIndep caps fs g id
    simp only [runModels]
    cases hx : (processModel caps g id).2.2 with
    | some f =>
      rw [hx] at hf
      rw [hf]
      simp [htr]
    | none =>
      rw [hx] at hf
      rw [hf]
      dsimp only
      obtain ⟨h1, h2⟩ := ih ((processModel caps fs id).2.1) ((processModel caps g id).2.1)
      exact ⟨by rw [htr, h1], h2⟩

theorem fsSave_pair_apply (fs : Fs) (p cm ct q : String) :
    fsSaveTokenizer (fsSaveModel fs p cm) p ct q =
      if q = p then { modelFiles := some cm, tokFiles := some ct } else fs q := by
  unfold fsSaveTokenizer fsSaveModel
  by_cases h : q = p <;> simp [h]

theorem processModel_none_ok (caps : Caps) (fs : Fs) (id : String)
    (h : (processModel caps fs id).2.2 = none) :
    ∃ p, onnx_path id = some p ∧ caps.convertOk id = true ∧
      caps.tokenizerOk id = true := by
  cases hm : model_name id with
  | none => rw [processModel_indexFail caps fs id hm] at h; simp at h
  | some nm =>
    have hp : onnx_path id = some (posixPathStr ("onnx/" ++ nm)) := by
      simp [onnx_path_eq_map, hm]
    cases hc : caps.convertOk id with
    | false => rw [processModel_convertFail caps fs id _ hp hc] at h; simp at h
    | true =>
      cases ht : caps.tokenizerOk id with
      | false => rw [processModel_tokenizerFail caps fs id _ hp hc ht] at h; simp at h
      | true => exact ⟨_, hp, rfl, rfl⟩

theorem runModels_none_ok (caps : Caps) : ∀ (ids : List String) (fs : Fs),
    (runModels caps ids fs).2.2 = none →
    ∀ id ∈ ids, ∃ p, onnx_path id = some p ∧ caps.convertOk id = true ∧
      caps.tokenizerOk id = true := by
  intro ids
  induction ids with
  | nil => intro fs h id hid; simp at hid
  | cons id0 rest ih =>
    intro fs h id hid
    simp only [runModels] at h
    cases hx : (processModel caps fs id0).2.2 with
    | some f => rw [hx] at h; simp at h
    | none =>
      rw [hx] at h
      dsimp only at h
      rcases List.mem_cons.mp hid with rfl | hmem
      · exact processModel_none_ok caps fs id hx
      · exact ih _ h id hmem

theorem runModels_all_success (caps : Caps) : ∀ (ids : List String),
    (∀ id ∈ ids, ∃ p, onnx_path id = some p ∧ caps.convertOk id = true ∧
      caps.tokenizerOk id = true) →
    ∀ fs, (runModels caps ids fs).1 = ids.flatMap successTrace ∧
      (runModels caps ids fs).2.2 = none := by
  intro ids
  induction ids with
  | nil => intro h fs; simp [runModels]
  | cons id rest ih =>
    intro h fs
    obtain ⟨p, hp, hc, ht⟩ := h id (List.mem_cons_self id rest)
    have hproc := processModel_success caps fs id p hp hc ht
    have hrest := ih (fun i hi => h i (List.mem_cons_of_mem _ hi))
      (fsSaveTokenizer (fsSaveModel fs p (caps.modelContent id)) p (caps.tokContent id))
    simp only [runModels, hproc]
    refine ⟨?_, hrest.2⟩
    simp [List.flatMap_cons, successTrace, hp, hrest.1]

theorem runModels_final_fs (caps : Caps) : ∀ (ids : List String),
    (∀ id ∈ ids, ∃ p, onnx_path id = some p ∧ caps.convertOk id = true ∧
      caps.tokenizerOk id = true) →
    ∀ fs g q, (runModels caps ids g).2.1 q =
      if q ∈ touchedPaths ids then (runModels caps ids fs).2.1 q else g q := by
  intro ids
  induction ids with
  | nil => intro h fs g q; simp [runModels, touchedPaths]
  | cons id rest ih =>
    intro h fs g q
    obtain ⟨p, hp, hc, ht⟩ := h id (List.mem_cons_self id rest)
    have hok' : ∀ i ∈ rest, ∃ p, onnx_path i = some p ∧ caps.convertOk i = true ∧
        caps.tokenizerOk i = true := fun i hi => h i (List.mem_cons_of_mem _ hi)
    have ht' : touchedPaths (id :: rest) = p :: touchedPaths rest := by
      simp [touchedPaths, hp]
    have hpg := processModel_success caps g id p hp hc ht
    have hpf := processModel_success caps fs id p hp hc ht
    simp only [runModels, hpg, hpf]
    rw [ht']
    by_cases hq : q ∈ touchedPaths rest
    · rw [ih hok'
        (fsSaveTokenizer (fsSaveModel fs p (caps.modelContent id)) p (caps.tokContent id))
        (fsSaveTokenizer (fsSaveModel g p (caps.modelContent id)) p (caps.tokContent id)) q]
      simp [hq, List.mem_cons]
    · by_cases hqp : q = p
      · rw [ih hok'
          (fsSaveTokenizer (fsSaveModel fs p (caps.modelContent id)) p (caps.tokContent id))
          (fsSaveTokenizer (fsSaveModel g p (caps.modelContent id)) p (caps.tokContent id)) q]
        rw [ih hok'
          (fsSaveTokenizer (fsSaveModel fs p (caps.modelContent id)) p (caps.tokContent id))
          (fsSaveTokenizer (fsSaveModel fs p (caps.modelContent id)) p (caps.tokContent id)) q]
        simp [hq, hqp, fsSave_pair_apply, List.mem_cons]
        intro hnp
        rw [if_neg hnp]
      · rw [ih hok'
          (fsSaveTokenizer (fsSaveModel fs p (caps.modelContent id)) p (caps.tokContent id))
          (fsSaveTokenizer (fsSaveModel g p (caps.modelContent id)) p (caps.tokContent id)) q]
        simp [hq, hqp, fsSave_pair_apply, List.mem_cons]

/-! ## The claims -/

/-- C1: for every well-formed identifier of the form `<ns>/<name>` (exactly
one `/`, non-empty segments) the derived output directory is the path
`onnx/<name>` (as a `Path` value; as a string it is exactly `onnx/<name>`
whenever `name` is not the path component `.`, which `pathlib` elides); in
particular `"google/flan-t5-xl"` derives exactly `onnx/flan-t5-xl`. -/
theorem derived_output_dir_wellformed (ns name : String)
    (hns : '/' ∉ ns.data) (hname : '/' ∉ name.data)
    (_h1 : ns ≠ "") (h2 : name ≠ "") :
    onnx_path (ns ++ "/" ++ name) = some (posixPathStr ("onnx/" ++ name)) ∧
    (name ≠ "." → onnx_path (ns ++ "/" ++ name) = some ("onnx/" ++ name)) ∧
    onnx_path "google/flan-t5-xl" = some "onnx/flan-t5-xl" := by
  refine ⟨?_, ?_, by decide⟩
  · rw [onnx_path_eq_map, model_name_concat ns name hns,
      takeUntilSlash_eq_self name hname]
    rfl
  · intro h3
    exact onnx_path_concat ns name hns hname h2 h3

theorem derived_output_dir_wellformed_witness :
    ('/' ∉ "google".data) ∧ ('/' ∉ "flan-t5-xl".data) ∧
    ("google" : String) ≠ "" ∧ ("flan-t5-xl" : String) ≠ "" ∧
    (onnx_path ("google" ++ "/" ++ "flan-t5-xl") =
        some (posixPathStr ("onnx/" ++ "flan-t5-xl")) ∧
     (("flan-t5-xl" : String) ≠ "." →
        onnx_path ("google" ++ "/" ++ "flan-t5-xl") = some ("onnx/" ++ "flan-t5-xl")) ∧
     onnx_path "google/flan-t5-xl" = some "onnx/flan-t5-xl") :=
  ⟨by decide, by decide, by decide, by decide,
   derived_output_dir_wellformed "google" "flan-t5-xl"
     (by decide) (by decide) (by decide) (by decide)⟩

/-- C2 counterexample: for `"a/b/c"` (more than one `/`), the code derives
the split's second component `"b"`, not the substring after the last `/`
(which is `"c"`). -/
theorem model_name_not_last_segment :
    model_name "a/b/c" = some "b" ∧ model_name "a/b/c" ≠ some "c" := by
  decide

/-- C2 (amended): for every identifier containing at least one `/`, the
derived local directory name is the second component of the `/`-split — the
text strictly between the first `/` and the next `/` (or the end of the
string); when the identifier contains exactly one `/`, this coincides with
the text after the last `/`. -/
theorem model_name_second_segment (ns rest : String) (hns : '/' ∉ ns.data) :
    model_name (ns ++ "/" ++ rest) = some (takeUntilSlash rest) ∧
    ('/' ∉ rest.data → model_name (ns ++ "/" ++ rest) = some rest) := by
  refine ⟨model_name_concat ns rest hns, fun h => ?_⟩
  rw [model_name_concat ns rest hns, takeUntilSlash_eq_self rest h]

theorem model_name_second_segment_witness :
    ('/' ∉ "a".data) ∧
    (model_name ("a" ++ "/" ++ "b/c") = some (takeUntilSlash "b/c") ∧
     ('/' ∉ ("b/c" : String).data → model_name ("a" ++ "/" ++ "b/c") = some "b/c")) :=
  ⟨by decide, model_name_second_segment "a" "b/c" (by decide)⟩

/-- C3: an identifier with no `/` makes line 20 fail with an out-of-range
index into the split result; the run aborts there, keeping exactly the
earlier models' trace and filesystem and issuing no load, conversion or save
call for the bad identifier or any later one. -/
theorem indexError_aborts_run (caps : Caps) (pre rest : List String)
    (bad : String) (fs : Fs)
    (hpre : (runModels caps pre fs).2.2 = none)
    (hbad : '/' ∉ bad.data) :
    runModels caps (pre ++ bad :: rest) fs =
      ((runModels caps pre fs).1, (runModels caps pre fs).2.1,
       some (bad, .indexError)) := by
  rw [runModels_append caps pre (bad :: rest) fs hpre]
  have hm : model_name bad = none := model_name_no_slash bad hbad
  have hb : runModels caps (bad :: rest) ((runModels caps pre fs).2.1) =
      ([], (runModels caps pre fs).2.1, some (bad, .indexError)) := by
    simp only [runModels,
      processModel_indexFail caps ((runModels caps pre fs).2.1) bad hm]
  rw [hb]
  simp

theorem indexError_aborts_run_witness :
    (runModels capsAll ["google/flan-t5-xl"] fsEmpty).2.2 = none ∧
    ('/' ∉ "abc".data) ∧
    runModels capsAll (["google/flan-t5-xl"] ++ "abc" :: ["x/y"]) fsEmpty =
      ((runModels capsAll ["google/flan-t5-xl"] fsEmpty).1,
       (runModels capsAll ["google/flan-t5-xl"] fsEmpty).2.1,
       some ("abc", .indexError)) :=
  ⟨by decide, by decide,
   indexError_aborts_run capsAll ["google/flan-t5-xl"] ["x/y"] "abc" fsEmpty
     (by decide) (by decide)⟩

/-- C4: if the conversion call raises for a model, that iteration issues
only the path derivation and the (raising) conversion call — no save — the
run attempts no later identifier, and the filesystem stays exactly as the
earlier models left it. -/
theorem convert_failure_aborts_run (caps : Caps) (pre rest : List String)
    (bad p : String) (fs : Fs)
    (hpre : (runModels caps pre fs).2.2 = none)
    (hp : onnx_path bad = some p)
    (hc : caps.convertOk bad = false) :
    runModels caps (pre ++ bad :: rest) fs =
      ((runModels caps pre fs).1 ++ [.derivePath bad p, .loadConvert bad],
       (runModels caps pre fs).2.1,
       some (bad, .convertError)) := by
  rw [runModels_append caps pre (bad :: rest) fs hpre]
  have hb : runModels caps (bad :: rest) ((runModels caps pre fs).2.1) =
      ([.derivePath bad p, .loadConvert bad], (runModels caps pre fs).2.1,
       some (bad, .convertError)) := by
    simp only [runModels,
      processModel_convertFail caps ((runModels caps pre fs).2.1) bad p hp hc]
  rw [hb]

theorem convert_failure_aborts_run_witness :
    (runModels capsConvertFail ["google/flan-t5-xl"] fsEmpty).2.2 = none ∧
    onnx_path "google/bad-model" = some "onnx/bad-model" ∧
    capsConvertFail.convertOk "google/bad-model" = false ∧
    runModels capsConvertFail
        (["google/flan-t5-xl"] ++ "google/bad-model" :: ["google/flan-t5-xxl"])
        fsEmpty =
      ((runModels capsConvertFail ["google/flan-t5-xl"] fsEmpty).1 ++
        [.derivePath "google/bad-model" "onnx/bad-model",
         .loadConvert "google/bad-model"],
       (runModels capsConvertFail ["google/flan-t5-xl"] fsEmpty).2.1,
       some ("google/bad-model", .convertError)) :=
  ⟨by decide, by decide, by decide,
   convert_failure_aborts_run capsConvertFail ["google/flan-t5-xl"]
     ["google/flan-t5-xxl"] "google/bad-model" "onnx/bad-model" fsEmpty
     (by decide) (by decide) (by decide)⟩

/-- C5: when every configured model's calls succeed, the run's trace is
exactly the concatenation, in list order, of each model's fixed per-model
call sequence {derive path, load+convert, load tokenizer, save model, save
tokenizer} — no reordering and no interleaving across models. -/
theorem run_trace_in_order (caps : Caps) (ids : List String) (fs : Fs)
    (h : ∀ id ∈ ids, ∃ p, onnx_path id = some p ∧ caps.convertOk id = true ∧
      caps.tokenizerOk id = true) :
    (runModels caps ids fs).1 = ids.flatMap successTrace ∧
    (runModels caps ids fs).2.2 = none :=
  runModels_all_success caps ids h fs

theorem run_trace_in_order_witness :
    (∀ id ∈ models, ∃ p, onnx_path id = some p ∧ capsAll.convertOk id = true ∧
      capsAll.tokenizerOk id = true) ∧
    ((runModels capsAll models fsEmpty).1 = models.flatMap successTrace ∧
     (runModels capsAll models fsEmpty).2.2 = none) := by
  have h : ∀ id ∈ models, ∃ p, onnx_path id = some p ∧
      capsAll.convertOk id = true ∧ capsAll.tokenizerOk id = true := by
    intro id hid
    simp only [models, List.mem_cons, List.not_mem_nil, or_false] at hid
    rcases hid with rfl | rfl
    · exact ⟨"onnx/flan-t5-xl", by decide, rfl, rfl⟩
    · exact ⟨"onnx/flan-t5-xxl", by decide, rfl, rfl⟩
  exact ⟨h, run_trace_in_order capsAll models fsEmpty h⟩

/-- C6: a full run over the configured list (whose only elements are the two
enabled identifiers) issues exactly the ten calls below in order, populates
exactly the two directories `onnx/flan-t5-xl` then `onnx/flan-t5-xxl`,
leaves every other path untouched, and issues zero calls against any
commented-out identifier. -/
theorem full_run_two_directories (caps : Caps)
    (h1 : caps.convertOk "google/flan-t5-xl" = true)
    (h2 : caps.tokenizerOk "google/flan-t5-xl" = true)
    (h3 : caps.convertOk "google/flan-t5-xxl" = true)
    (h4 : caps.tokenizerOk "google/flan-t5-xxl" = true) :
    (runModels caps models fsEmpty).1 =
      [.derivePath "google/flan-t5-xl" "onnx/flan-t5-xl",
       .loadConvert "google/flan-t5-xl", .loadTokenizer "google/flan-t5-xl",
       .saveModel "onnx/flan-t5-xl", .saveTokenizer "onnx/flan-t5-xl",
       .derivePath "google/flan-t5-xxl" "onnx/flan-t5-xxl",
       .loadConvert "google/flan-t5-xxl", .loadTokenizer "google/flan-t5-xxl",
       .saveModel "onnx/flan-t5-xxl", .saveTokenizer "onnx/flan-t5-xxl"] ∧
    (runModels caps models fsEmpty).2.2 = none ∧
    (runModels caps models fsEmpty).2.1 "onnx/flan-t5-xl" =
      { modelFiles := some (caps.modelContent "google/flan-t5-xl"),
        tokFiles := some (caps.tokContent "google/flan-t5-xl") } ∧
    (runModels caps models fsEmpty).2.1 "onnx/flan-t5-xxl" =
      { modelFiles := some (caps.modelContent "google/flan-t5-xxl"),
        tokFiles := some (caps.tokContent "google/flan-t5-xxl") } ∧
    (∀ q, q ≠ "onnx/flan-t5-xl" → q ≠ "onnx/flan-t5-xxl" →
      (runModels caps models fsEmpty).2.1 q = {}) ∧
    (∀ e ∈ (runModels caps models fsEmpty).1, ∀ d ∈ disabledModels,
      eventUsesId e d = false) := by
  have ha := processModel_success caps fsEmpty "google/flan-t5-xl"
    "onnx/flan-t5-xl" (by decide) h1 h2
  have hb := processModel_success caps
    (fsSaveTokenizer
      (fsSaveModel fsEmpty "onnx/flan-t5-xl" (caps.modelContent "google/flan-t5-xl"))
      "onnx/flan-t5-xl" (caps.tokContent "google/flan-t5-xl"))
    "google/flan-t5-xxl" "onnx/flan-t5-xxl" (by decide) h3 h4
  have hrun : runModels caps models fsEmpty =
      ([.derivePath "google/flan-t5-xl" "onnx/flan-t5-xl",
        .loadConvert "google/flan-t5-xl", .loadTokenizer "google/flan-t5-xl",
        .saveModel "onnx/flan-t5-xl", .saveTokenizer "onnx/flan-t5-xl",
        .derivePath "google/flan-t5-xxl" "onnx/flan-t5-xxl",
        .loadConvert "google/flan-t5-xxl", .loadTokenizer "google/flan-t5-xxl",
        .saveModel "onnx/flan-t5-xxl", .saveTokenizer "onnx/flan-t5-xxl"],
       fsSaveTokenizer
         (fsSaveModel
           (fsSaveTokenizer
             (fsSaveModel fsEmpty "onnx/flan-t5-xl"
               (caps.modelContent "google/flan-t5-xl"))
             "onnx/flan-t5-xl" (caps.tokContent "google/flan-t5-xl"))
           "onnx/flan-t5-xxl" (caps.modelContent "google/flan-t5-xxl"))
         "onnx/flan-t5-xxl" (caps.tokContent "google/flan-t5-xxl"),
       none) := by
    simp [models, runModels, ha, hb]
  refine ⟨by rw [hrun], by rw [hrun], ?_, ?_, ?_, ?_⟩
  · rw [hrun]
    dsimp only
    rw [fsSave_pair_apply, if_neg (by decide), fsSave_pair_apply, if_pos rfl]
  · rw [hrun]
    dsimp only
    rw [fsSave_pair_apply, if_pos rfl]
  · intro q hq1 hq2
    rw [hrun]
    dsimp only
    rw [fsSave_pair_apply, if_neg hq2, fsSave_pair_apply, if_neg hq1]
    rfl
  · have hdec : ∀ e ∈
        ([.derivePath "google/flan-t5-xl" "onnx/flan-t5-xl",
          .loadConvert "google/flan-t5-xl", .loadTokenizer "google/flan-t5-xl",
          .saveModel "onnx/flan-t5-xl", .saveTokenizer "onnx/flan-t5-xl",
          .derivePath "google/flan-t5-xxl" "onnx/flan-t5-xxl",
          .loadConvert "google/flan-t5-xxl", .loadTokenizer "google/flan-t5-xxl",
          .saveModel "onnx/flan-t5-xxl", .saveTokenizer "onnx/flan-t5-xxl"] :
          List Event),
        ∀ d ∈ disabledModels, eventUsesId e d = false := by decide
    intro e he d hd
    rw [hrun] at he
    exact hdec e he d hd

theorem full_run_two_directories_witness :
    capsAll.convertOk "google/flan-t5-xl" = true ∧
    capsAll.tokenizerOk "google/flan-t5-xl" = true ∧
    capsAll.convertOk "google/flan-t5-xxl" = true ∧
    capsAll.tokenizerOk "google/flan-t5-xxl" = true ∧
    (runModels capsAll models fsEmpty).2.2 = none ∧
    (runModels capsAll models fsEmpty).2.1 "onnx/flan-t5-xl" =
      { modelFiles := some (capsAll.modelContent "google/flan-t5-xl"),
        tokFiles := some (capsAll.tokContent "google/flan-t5-xl") } :=
  ⟨rfl, rfl, rfl, rfl,
   (full_run_two_directories capsAll rfl rfl rfl rfl).2.1,
   (full_run_two_directories capsAll rfl rfl rfl rfl).2.2.1⟩

/-- C7: within one iteration, the identifier passed to the tokenizer load is
the one passed to the model load+convert (both are this iteration's
`model_id`), and the two save calls target one and the same derived output
directory, namely `onnx_path model_id`. -/
theorem iteration_consistent_ids_paths (caps : Caps) (fs : Fs)
    (model_id i j p q : String)
    (hi : Event.loadConvert i ∈ (processModel caps fs model_id).1)
    (hj : Event.loadTokenizer j ∈ (processModel caps fs model_id).1)
    (hp : Event.saveModel p ∈ (processModel caps fs model_id).1)
    (hq : Event.saveTokenizer q ∈ (processModel caps fs model_id).1) :
    i = model_id ∧ j = model_id ∧ p = q ∧ onnx_path model_id = some p := by
  unfold processModel at hi hj hp hq
  cases hm : model_name model_id with
  | none => rw [hm] at hi; simp at hi
  | some nm =>
    rw [hm] at hi hj hp hq
    have hpath : onnx_path model_id = some (posixPathStr ("onnx/" ++ nm)) := by
      simp [onnx_path_eq_map, hm]
    cases hc : caps.convertOk model_id with
    | false => simp [hc] at hp
    | true =>
      cases ht : caps.tokenizerOk model_id with
      | false => simp [hc, ht] at hp
      | true =>
        simp [hc, ht] at hi hj hp hq
        exact ⟨hi, hj, by rw [hp, hq], by rw [hpath, hp]⟩

theorem iteration_consistent_ids_paths_witness :
    Event.loadConvert "google/flan-t5-xl" ∈
      (processModel capsAll fsEmpty "google/flan-t5-xl").1 ∧
    Event.loadTokenizer "google/flan-t5-xl" ∈
      (processModel capsAll fsEmpty "google/flan-t5-xl").1 ∧
    Event.saveModel "onnx/flan-t5-xl" ∈
      (processModel capsAll fsEmpty "google/flan-t5-xl").1 ∧
    Event.saveTokenizer "onnx/flan-t5-xl" ∈
      (processModel capsAll fsEmpty "google/flan-t5-xl").1 ∧
    ("google/flan-t5-xl" = "google/flan-t5-xl" ∧
     "google/flan-t5-xl" = "google/flan-t5-xl" ∧
     "onnx/flan-t5-xl" = "onnx/flan-t5-xl" ∧
     onnx_path "google/flan-t5-xl" = some "onnx/flan-t5-xl") :=
  ⟨by decide, by decide, by decide, by decide,
   iteration_consistent_ids_paths capsAll fsEmpty "google/flan-t5-xl"
     "google/flan-t5-xl" "google/flan-t5-xl" "onnx/flan-t5-xl" "onnx/flan-t5-xl"
     (by decide) (by decide) (by decide) (by decide)⟩

/-- C8: the run is deterministic in its identifier list: the trace of
load/convert/save calls and the derived paths do not depend on the prior
filesystem state at all, and re-running a successful run over the filesystem
it produced (overwriting saves with the same deterministic contents) yields
the same trace and leaves the filesystem contents identical. -/
theorem run_deterministic_idempotent (caps : Caps) (ids : List String) (fs : Fs)
    (h : (runModels caps ids fs).2.2 = none) :
    (∀ g, (runModels caps ids g).1 = (runModels caps ids fs).1) ∧
    runModels caps ids ((runModels caps ids fs).2.1) =
      ((runModels caps ids fs).1, (runModels caps ids fs).2.1, none) := by
  have hok := runModels_none_ok caps ids fs h
  refine ⟨fun g => (runModels_trace_fsIndep caps ids g fs).1, ?_⟩
  have htr := (runModels_trace_fsIndep caps ids ((runModels caps ids fs).2.1) fs).1
  have hres := (runModels_trace_fsIndep caps ids ((runModels caps ids fs).2.1) fs).2
  have hfs : (runModels caps ids ((runModels caps ids fs).2.1)).2.1 =
      (runModels caps ids fs).2.1 := by
    funext q
    rw [runModels_final_fs caps ids hok fs ((runModels caps ids fs).2.1) q]
    by_cases hq : q ∈ touchedPaths ids <;> simp [hq]
  have heta : runModels caps ids ((runModels caps ids fs).2.1) =
      ((runModels caps ids ((runModels caps ids fs).2.1)).1,
       (runModels caps ids ((runModels caps ids fs).2.1)).2.1,
       (runModels caps ids ((runModels caps ids fs).2.1)).2.2) := rfl
  rw [heta, htr, hfs, hres, h]

theorem run_deterministic_idempotent_witness :
    (runModels capsAll models fsEmpty).2.2 = none ∧
    ((∀ g, (runModels capsAll models g).1 = (runModels capsAll models fsEmpty).1) ∧
     runModels capsAll models ((runModels capsAll models fsEmpty).2.1) =
       ((runModels capsAll models fsEmpty).1,
        (runModels capsAll models fsEmpty).2.1, none)) :=
  ⟨by decide, run_deterministic_idempotent capsAll models fsEmpty (by decide)⟩

/-- C9: for an identifier whose text after the first `/` is empty (such as
`"ns/"`), line 20 derives the empty model name, `Path("onnx/" + "")`
collapses to the base directory `onnx` itself, and a successful iteration
saves both artifacts directly into it. -/
theorem empty_name_collapses_to_base (caps : Caps) (fs : Fs) (ns : String)
    (hns : '/' ∉ ns.data)
    (hc : caps.convertOk (ns ++ "/") = true)
    (ht : caps.tokenizerOk (ns ++ "/") = true) :
    model_name (ns ++ "/") = some "" ∧
    onnx_path (ns ++ "/") = some "onnx" ∧
    processModel caps fs (ns ++ "/") =
      ([.derivePath (ns ++ "/") "onnx", .loadConvert (ns ++ "/"),
        .loadTokenizer (ns ++ "/"), .saveModel "onnx", .saveTokenizer "onnx"],
       fsSaveTokenizer (fsSaveModel fs "onnx" (caps.modelContent (ns ++ "/")))
         "onnx" (caps.tokContent (ns ++ "/")), none) ∧
    (processModel caps fs (ns ++ "/")).2.1 "onnx" =
      { modelFiles := some (caps.modelContent (ns ++ "/")),
        tokFiles := some (caps.tokContent (ns ++ "/")) } := by
  have he : (ns ++ "/" : String) = ns ++ "/" ++ "" := by
    rw [String.append_empty]
  have hm : model_name (ns ++ "/") = some "" := by
    rw [he, model_name_concat ns "" hns]
    rfl
  have hp : onnx_path (ns ++ "/") = some "onnx" := by
    rw [onnx_path_eq_map, hm]
    decide
  have hproc := processModel_success caps fs (ns ++ "/") "onnx" hp hc ht
  refine ⟨hm, hp, hproc, ?_⟩
  rw [hproc]
  dsimp only
  rw [fsSave_pair_apply, if_pos rfl]

theorem empty_name_collapses_to_base_witness :
    ('/' ∉ "ns".data) ∧
    capsAll.convertOk ("ns" ++ "/") = true ∧
    capsAll.tokenizerOk ("ns" ++ "/") = true ∧
    (model_name ("ns" ++ "/") = some "" ∧
     onnx_path ("ns" ++ "/") = some "onnx" ∧
     processModel capsAll fsEmpty ("ns" ++ "/") =
       ([.derivePath ("ns" ++ "/") "onnx", .loadConvert ("ns" ++ "/"),
         .loadTokenizer ("ns" ++ "/"), .saveModel "onnx", .saveTokenizer "onnx"],
        fsSaveTokenizer
          (fsSaveModel fsEmpty "onnx" (capsAll.modelContent ("ns" ++ "/")))
          "onnx" (capsAll.tokContent ("ns" ++ "/")), none) ∧
     (processModel capsAll fsEmpty ("ns" ++ "/")).2.1 "onnx" =
       { modelFiles := some (capsAll.modelContent ("ns" ++ "/")),
         tokFiles := some (capsAll.tokContent ("ns" ++ "/")) }) :=
  ⟨by decide, rfl, rfl,
   empty_name_collapses_to_base capsAll fsEmpty "ns" (by decide) rfl rfl⟩

/-- C10: if the tokenizer-loading call raises for a model after a successful
conversion, that iteration issues the path derivation, the conversion call
and the (raising) tokenizer call but zero save calls — both saves come after
both loads — the run attempts no later identifier, and the filesystem stays
exactly as the earlier models left it. -/
theorem tokenizer_failure_no_saves (caps : Caps) (pre rest : List String)
    (bad p : String) (fs : Fs)
    (hpre : (runModels caps pre fs).2.2 = none)
    (hp : onnx_path bad = some p)
    (hc : caps.convertOk bad = true)
    (ht : caps.tokenizerOk bad = false) :
    runModels caps (pre ++ bad :: rest) fs =
      ((runModels caps pre fs).1 ++
        [.derivePath bad p, .loadConvert bad, .loadTokenizer bad],
       (runModels caps pre fs).2.1,
       some (bad, .tokenizerError)) := by
  rw [runModels_append caps pre (bad :: rest) fs hpre]
  have hb : runModels caps (bad :: rest) ((runModels caps pre fs).2.1) =
      ([.derivePath bad p, .loadConvert bad, .loadTokenizer bad],
       (runModels caps pre fs).2.1, some (bad, .tokenizerError)) := by
    simp only [runModels,
      processModel_tokenizerFail caps ((runModels caps pre fs).2.1) bad p hp hc ht]
  rw [hb]

theorem tokenizer_failure_no_saves_witness :
    (runModels capsTokFail ["google/flan-t5-xl"] fsEmpty).2.2 = none ∧
    onnx_path "google/bad-model" = some "onnx/bad-model" ∧
    capsTokFail.convertOk "google/bad-model" = true ∧
    capsTokFail.tokenizerOk "google/bad-model" = false ∧
    runModels capsTokFail
        (["google/flan-t5-xl"] ++ "google/bad-model" :: ["google/flan-t5-xxl"])
        fsEmpty =
      ((runModels capsTokFail ["google/flan-t5-xl"] fsEmpty).1 ++
        [.derivePath "google/bad-model" "onnx/bad-model",
         .loadConvert "google/bad-model", .loadTokenizer "google/bad-model"],
       (runModels capsTokFail ["google/flan-t5-xl"] fsEmpty).2.1,
       some ("google/bad-model", .tokenizerError)) :=
  ⟨by decide, by decide, by decide, by decide,
   tokenizer_failure_no_saves capsTokFail ["google/flan-t5-xl"]
     ["google/flan-t5-xxl"] "google/bad-model" "onnx/bad-model" fsEmpty
     (by decide) (by decide) (by decide) (by decide)⟩

end ExportT5
